import Mathlib

/-!
Verification of `py_audioin_api` (audioapi-poc): a shallow embedding of
`src/py_audioin_api/api.py` — the `AudioRPCService.GetAudio` server handler,
the `AudioClient.get_audio` client call, and the messages they exchange —
together with theorems settling the specification's claims about them.

The server handler (api.py lines 31-32) is
    async def GetAudio(self, stream: Stream[GetAudioRequest, AudioChunk]) -> None:
        return
so it reads nothing from the stream, sends no chunk, and returns without
setting an error status; the transport then closes the response stream
normally.

The client call (api.py lines 41-53) builds one `GetAudioRequest` from its
arguments, opens the stream, sends the request with `end=True`, and yields
every received chunk in order, re-raising any exception unchanged.
-/

/-- The `GetAudioRequest` message exactly as constructed by
`AudioClient.get_audio` (api.py line 42): keyword arguments `name`,
`duration_seconds`, `codec`, `max_duration_seconds`, `previous_timestamp`.
No `sample_rate` or `channels` value is supplied by the client. -/
structure GetAudioRequest where
  name : String
  duration_seconds : Int
  codec : String
  max_duration_seconds : Int
  previous_timestamp : Int
deriving DecidableEq, Repr

/-- Modelled from the spec: the `AudioChunk` protobuf message
(`py_audioin_api/grpc/audio_pb2`, generated code absent from the sources):
spec section 3 gives `{payload: opaque encoded bytes, timestamp: monotonic
timestamp of the chunk's last contained sample, sequenceNumber: strictly
increasing integer within a session}`. Payload bytes are byte values. -/
structure AudioChunk where
  payload : List Nat
  timestamp : Int
  sequenceNumber : Int
deriving DecidableEq, Repr

/-- Error statuses the spec's external interface can surface at the
transport boundary (spec section 6). -/
inductive ErrorStatus where
  | invalidArgument
  | outOfRange
  | timeout
  | unavailable
  | cancelled
deriving DecidableEq, Repr

/-- The externally observable outcome of one invocation of the server
handler: how many request messages it read from the stream, the chunks it
sent, and the error status it set (none means the transport closes the
response stream normally, with an OK status). -/
structure HandlerOutcome where
  requestsRead : Nat
  chunksSent : List AudioChunk
  errorStatus : Option ErrorStatus
deriving DecidableEq, Repr

/-- `AudioRPCService.GetAudio` (api.py lines 31-32). The body is a bare
`return`: the pending request message is never read, no chunk is sent, no
error status is set, so the transport closes the stream normally. -/
def AudioRPCService.GetAudio (_pendingRequest : GetAudioRequest) : HandlerOutcome :=
  { requestsRead := 0, chunksSent := [], errorStatus := none }

/-- One event observed by the client while iterating the response stream:
either a received `AudioChunk` message, or an error raised by the
transport (which aborts the iteration). -/
inductive RpcEvent where
  | msg (c : AudioChunk)
  | fail (e : ErrorStatus)
deriving DecidableEq, Repr

/-- The response events a client iterating the stream observes, given the
handler's outcome: each sent chunk in order, then a failure event exactly
when the handler set an error status. -/
def responseEvents (h : HandlerOutcome) : List RpcEvent :=
  h.chunksSent.map RpcEvent.msg ++
    (match h.errorStatus with
     | some e => [RpcEvent.fail e]
     | none => [])

/-- One transport-level action performed by `AudioClient.get_audio`'s
`read` coroutine, in program order. -/
inductive ClientAction where
  | openStream
  | sendMessage (req : GetAudioRequest) (endFlag : Bool)
  | recvChunk (c : AudioChunk)
  | yieldChunk (c : AudioChunk)
  | raiseError (e : ErrorStatus)
  | closeStream
deriving DecidableEq, Repr

/-- The `async for audioChunk in audio_stream: yield audioChunk` loop of
`AudioClient.get_audio.read` (api.py lines 48-51): each received chunk is
yielded at once; an exception aborts the loop and the
`except Exception as e: raise (e)` clause re-raises the same exception. -/
def readLoop : List RpcEvent → List ClientAction
  | [] => []
  | RpcEvent.msg c :: rest =>
      ClientAction.recvChunk c :: ClientAction.yieldChunk c :: readLoop rest
  | RpcEvent.fail e :: _ => [ClientAction.raiseError e]

/-- `AudioClient.get_audio` (api.py lines 41-53), as the trace of transport
actions its `read` coroutine performs when the response stream produces
`events`: build the request from the call arguments and `self.name`, open
the stream (`async with self.client.GetAudio.open()`), send the request
with `end=True`, run the receive loop, and close the stream on exit from
the `async with` block. -/
def AudioClient.get_audio (selfName : String) (durationSeconds : Int) (codec : String)
    (maxDurationSeconds : Int) (previousTimestamp : Int)
    (events : List RpcEvent) : List ClientAction :=
  ClientAction.openStream ::
    ClientAction.sendMessage
      { name := selfName
        duration_seconds := durationSeconds
        codec := codec
        max_duration_seconds := maxDurationSeconds
        previous_timestamp := previousTimestamp } true ::
    (readLoop events ++ [ClientAction.closeStream])

/-- The request messages sent during a client trace, with their `end`
flags, in order. -/
def sentMessages : List ClientAction → List (GetAudioRequest × Bool)
  | [] => []
  | ClientAction.sendMessage r b :: rest => (r, b) :: sentMessages rest
  | _ :: rest => sentMessages rest

/-- The chunks received from the response stream during a client trace,
in order. -/
def receivedChunks : List ClientAction → List AudioChunk
  | [] => []
  | ClientAction.recvChunk c :: rest => c :: receivedChunks rest
  | _ :: rest => receivedChunks rest

/-- The chunks the client trace yields to its caller, in order. -/
def yieldedChunks : List ClientAction → List AudioChunk
  | [] => []
  | ClientAction.yieldChunk c :: rest => c :: yieldedChunks rest
  | _ :: rest => yieldedChunks rest

/-- The errors a client trace propagates to its caller, in order. -/
def raisedErrors : List ClientAction → List ErrorStatus
  | [] => []
  | ClientAction.raiseError e :: rest => e :: raisedErrors rest
  | _ :: rest => raisedErrors rest

/-- Whether some response chunk is consumed before the first request
message is sent in a client trace. -/
def recvBeforeFirstSend : List ClientAction → Bool
  | [] => false
  | ClientAction.sendMessage _ _ :: _ => false
  | ClientAction.recvChunk _ :: _ => true
  | _ :: rest => recvBeforeFirstSend rest

/-- A whole session of the in-repo client against the in-repo server stub:
the client trace obtained when the response events are exactly those the
`AudioRPCService.GetAudio` handler produces for the sent request. -/
def sessionTrace (selfName : String) (durationSeconds : Int) (codec : String)
    (maxDurationSeconds : Int) (previousTimestamp : Int) : List ClientAction :=
  AudioClient.get_audio selfName durationSeconds codec maxDurationSeconds previousTimestamp
    (responseEvents (AudioRPCService.GetAudio
      { name := selfName
        duration_seconds := durationSeconds
        codec := codec
        max_duration_seconds := maxDurationSeconds
        previous_timestamp := previousTimestamp }))

/-- The chunks actually delivered to the caller over one whole session
against the in-repo server. -/
def deliveredChunks (selfName : String) (durationSeconds : Int) (codec : String)
    (maxDurationSeconds : Int) (previousTimestamp : Int) : List AudioChunk :=
  yieldedChunks
    (sessionTrace selfName durationSeconds codec maxDurationSeconds previousTimestamp)

/-- Timestamp-delta based accumulated duration of a delivered chunk
sequence (spec section 4.2: duration accounting is timestamp-delta based):
last chunk's timestamp minus first chunk's timestamp, and zero when
nothing was delivered. -/
def streamedDuration (cs : List AudioChunk) : Int :=
  match cs.head?, cs.getLast? with
  | some a, some b => b.timestamp - a.timestamp
  | _, _ => 0

/-- The parameters of the abstract interface method `Audio.get_audio`
(api.py lines 24-25), in declaration order. -/
def audioAbstractParams : List String :=
  ["format", "sampleRate", "channels", "durationSeconds", "maxDurationSeconds",
   "previousTimestamp"]

/-- The parameters of the concrete client method `AudioClient.get_audio`
(api.py line 41), in declaration order. -/
def audioClientParams : List String :=
  ["durationSeconds", "codec", "maxDurationSeconds", "previousTimestamp"]

/-- The protobuf fields set on the `GetAudioRequest` the client sends
(the keyword arguments of the constructor call at api.py line 42). -/
def clientSentFields : List String :=
  ["name", "duration_seconds", "codec", "max_duration_seconds", "previous_timestamp"]

/-- Modelled from the spec: the request fields of the external interface
(spec section 6; the protobuf definition `audio_pb2` is absent from the
sources). In protobuf snake_case: `sampleRate` is `sample_rate`,
`durationSeconds` is `duration_seconds`, and so on; the spec's `format`
(a string codec name) is the wire field `codec`. -/
def specRequestFields : List String :=
  ["name", "codec", "sample_rate", "channels", "duration_seconds",
   "max_duration_seconds", "previous_timestamp"]

/- ### Helper lemmas -/

/-- The handler outcome is the same constant for every request. -/
theorem getAudio_eq (req : GetAudioRequest) :
    AudioRPCService.GetAudio req =
      { requestsRead := 0, chunksSent := [], errorStatus := none } := rfl

/-- The session trace against the stub server contains no chunk events. -/
theorem sessionTrace_eq (n : String) (d : Int) (c : String) (m : Int) (p : Int) :
    sessionTrace n d c m p =
      [ClientAction.openStream,
       ClientAction.sendMessage
         { name := n, duration_seconds := d, codec := c,
           max_duration_seconds := m, previous_timestamp := p } true,
       ClientAction.closeStream] := rfl

theorem deliveredChunks_eq_nil (n : String) (d : Int) (c : String) (m : Int) (p : Int) :
    deliveredChunks n d c m p = [] := rfl

theorem yieldedChunks_append (l₁ l₂ : List ClientAction) :
    yieldedChunks (l₁ ++ l₂) = yieldedChunks l₁ ++ yieldedChunks l₂ := by
  induction l₁ with
  | nil => rfl
  | cons a rest ih => cases a <;> simp [yieldedChunks, ih]

theorem raisedErrors_append (l₁ l₂ : List ClientAction) :
    raisedErrors (l₁ ++ l₂) = raisedErrors l₁ ++ raisedErrors l₂ := by
  induction l₁ with
  | nil => rfl
  | cons a rest ih => cases a <;> simp [raisedErrors, ih]

theorem receivedChunks_append (l₁ l₂ : List ClientAction) :
    receivedChunks (l₁ ++ l₂) = receivedChunks l₁ ++ receivedChunks l₂ := by
  induction l₁ with
  | nil => rfl
  | cons a rest ih => cases a <;> simp [receivedChunks, ih]

theorem sentMessages_append (l₁ l₂ : List ClientAction) :
    sentMessages (l₁ ++ l₂) = sentMessages l₁ ++ sentMessages l₂ := by
  induction l₁ with
  | nil => rfl
  | cons a rest ih => cases a <;> simp [sentMessages, ih]

/-- The receive loop sends no request message. -/
theorem sentMessages_readLoop (events : List RpcEvent) :
    sentMessages (readLoop events) = [] := by
  induction events with
  | nil => rfl
  | cons ev rest ih => cases ev <;> simp [readLoop, sentMessages, ih]

/-- The receive loop yields exactly the chunks it receives, in order. -/
theorem yielded_eq_received_readLoop (events : List RpcEvent) :
    yieldedChunks (readLoop events) = receivedChunks (readLoop events) := by
  induction events with
  | nil => rfl
  | cons ev rest ih =>
      cases ev <;> simp [readLoop, yieldedChunks, receivedChunks, ih]

/-- On a stream of `pre` chunks followed by an error, the receive loop
yields exactly `pre` and raises exactly that error. -/
theorem readLoop_chunks_then_fail (pre : List AudioChunk) (e : ErrorStatus)
    (post : List RpcEvent) :
    yieldedChunks (readLoop (pre.map RpcEvent.msg ++ RpcEvent.fail e :: post)) = pre ∧
    raisedErrors (readLoop (pre.map RpcEvent.msg ++ RpcEvent.fail e :: post)) = [e] := by
  induction pre with
  | nil => exact ⟨rfl, rfl⟩
  | cons c rest ih =>
      refine ⟨?_, ?_⟩ <;>
        simp [readLoop, yieldedChunks, raisedErrors, ih.1, ih.2]

/- ### Claims -/

/-- C1: the claim says a request with non-positive `sampleRate` or
`channels` (for instance `sampleRate = 0`) makes `GetAudio` fail with an
`InvalidArgument` error. On the code, the handler returns immediately for
every request — whatever sample rate or channel count the request carries —
emitting zero chunks (that part of the claim holds) but never setting an
`InvalidArgument` error status: the stream closes normally. -/
theorem c1_no_invalidArgument_ever (req : GetAudioRequest) :
    (AudioRPCService.GetAudio req).errorStatus ≠ some ErrorStatus.invalidArgument ∧
    (AudioRPCService.GetAudio req).chunksSent = [] := by
  exact ⟨by simp [AudioRPCService.GetAudio], rfl⟩

/-- C2: the claim says the scenario `{durationSeconds: 20,
maxDurationSeconds: 10}` streams `min 20 10 = 10` seconds of audio. On the
code, the session delivers no chunk at all, so the accumulated streamed
duration is `0`, not `10`. -/
theorem c2_duration_zero_not_ten :
    deliveredChunks "mic" 20 "pcm" 10 0 = [] ∧
    streamedDuration (deliveredChunks "mic" 20 "pcm" 10 0) = 0 ∧
    min (20 : Int) 10 = 10 := by
  exact ⟨rfl, rfl, rfl⟩

/-- C3: within one session, the chunk sequence delivered to the caller has
strictly increasing sequence numbers, non-decreasing timestamps, no
duplicate timestamps, and no chunk delivered twice. This holds on the
code — vacuously, because the delivered sequence is empty for every
session. -/
theorem c3_session_ordering (n : String) (d : Int) (c : String) (m : Int) (p : Int) :
    List.Pairwise (fun a b : AudioChunk => a.sequenceNumber < b.sequenceNumber)
      (deliveredChunks n d c m p) ∧
    List.Pairwise (fun a b : AudioChunk => a.timestamp ≤ b.timestamp)
      (deliveredChunks n d c m p) ∧
    ((deliveredChunks n d c m p).map AudioChunk.timestamp).Nodup ∧
    (deliveredChunks n d c m p).Nodup := by
  rw [deliveredChunks_eq_nil]
  exact ⟨List.Pairwise.nil, List.Pairwise.nil, List.nodup_nil, List.nodup_nil⟩

/-- C4: the claim says a `previousTimestamp` older than the retention
window makes the session fail with `OutOfRange`. On the code, the handler
never even reads the request — so it cannot inspect `previousTimestamp` —
and it sets no error status for any request: the stream closes normally
with zero chunks (only the zero-chunks part of the claim holds). -/
theorem c4_no_outOfRange_ever (req : GetAudioRequest) :
    (AudioRPCService.GetAudio req).errorStatus ≠ some ErrorStatus.outOfRange ∧
    (AudioRPCService.GetAudio req).requestsRead = 0 ∧
    (AudioRPCService.GetAudio req).chunksSent = [] := by
  exact ⟨by simp [AudioRPCService.GetAudio], rfl, rfl⟩

/-- C5: every chunk delivered in a session started with
`previousTimestamp = p` has a timestamp at or after `p`, so no previously
delivered audio is re-delivered. This holds on the code — vacuously,
because no chunk is ever delivered. -/
theorem c5_resume_no_overlap (n : String) (d : Int) (c : String) (m : Int) (p : Int) :
    (deliveredChunks n d c m p).all (fun ch => decide (p ≤ ch.timestamp)) = true := by
  rw [deliveredChunks_eq_nil]
  rfl

/-- C6: after a cancellation signal is observed at any point `k` of the
handler's production, no further chunk is emitted, and the session trace
ends by closing the stream (releasing the session). This holds on the
code — vacuously, because the handler emits no chunk at all and the trace
always ends with `closeStream`. -/
theorem c6_cancellation_stops_emission (req : GetAudioRequest) (k : Nat)
    (n : String) (d : Int) (c : String) (m : Int) (p : Int) :
    ((AudioRPCService.GetAudio req).chunksSent).drop k = [] ∧
    (sessionTrace n d c m p).getLast? = some ClientAction.closeStream := by
  refine ⟨?_, ?_⟩
  · rw [getAudio_eq]
    exact List.drop_nil
  · rw [sessionTrace_eq]
    rfl

/-- C7: the claim says every `get_audio` call sends a request carrying all
the fields of the external interface — `name`, `format` (wire field
`codec`), `sampleRate`, `channels`, `durationSeconds`,
`maxDurationSeconds`, `previousTimestamp`. On the code, the request
constructed by `AudioClient.get_audio` sets no `sample_rate` and no
`channels` field, and the client method does not even accept those
parameters, although the abstract interface `Audio.get_audio` it
implements declares both. -/
theorem c7_sampleRate_channels_missing :
    "sample_rate" ∈ specRequestFields ∧
    "channels" ∈ specRequestFields ∧
    "sample_rate" ∉ clientSentFields ∧
    "channels" ∉ clientSentFields ∧
    "sampleRate" ∈ audioAbstractParams ∧
    "sampleRate" ∉ audioClientParams ∧
    "channels" ∉ audioClientParams := by
  decide

/-- C8: if the response stream produces `pre` chunks and then raises an
error `e`, the client yields exactly the `pre` chunks and then propagates
exactly `e` — the error is re-raised unchanged, never swallowed; in
particular an error raised before any chunk (`pre = []`, a validation
error) surfaces with zero chunks yielded. -/
theorem c8_errors_propagate_unchanged (n : String) (d : Int) (c : String)
    (m : Int) (p : Int) (pre : List AudioChunk) (e : ErrorStatus)
    (post : List RpcEvent) :
    yieldedChunks
        (AudioClient.get_audio n d c m p (pre.map RpcEvent.msg ++ RpcEvent.fail e :: post)) =
      pre ∧
    raisedErrors
        (AudioClient.get_audio n d c m p (pre.map RpcEvent.msg ++ RpcEvent.fail e :: post)) =
      [e] := by
  unfold AudioClient.get_audio
  have h := readLoop_chunks_then_fail pre e post
  refine ⟨?_, ?_⟩
  · simp [yieldedChunks, yieldedChunks_append, h.1]
  · simp [raisedErrors, raisedErrors_append, h.2]

/-- C9: for every incoming request, the server handler returns without
reading the request message, emits zero chunks, and sets no error status;
consequently every client-observed stream — for any call arguments — is
empty: the session yields no chunk and raises no error. -/
theorem c9_stub_empty_stream (req : GetAudioRequest)
    (n : String) (d : Int) (c : String) (m : Int) (p : Int) :
    (AudioRPCService.GetAudio req).requestsRead = 0 ∧
    (AudioRPCService.GetAudio req).chunksSent = [] ∧
    (AudioRPCService.GetAudio req).errorStatus = none ∧
    yieldedChunks (sessionTrace n d c m p) = [] ∧
    raisedErrors (sessionTrace n d c m p) = [] := by
  refine ⟨rfl, rfl, rfl, ?_, ?_⟩ <;> rw [sessionTrace_eq] <;> rfl

/-- C10: every `get_audio` call sends exactly one request message, with
`end=True`, before consuming any response; the request's `name` field is
the name the client was constructed with; and the chunks yielded to the
caller are exactly the chunks received, unchanged and in reception
order. -/
theorem c10_client_send_once_relay (n : String) (d : Int) (c : String)
    (m : Int) (p : Int) (events : List RpcEvent) :
    sentMessages (AudioClient.get_audio n d c m p events) =
      [({ name := n, duration_seconds := d, codec := c,
          max_duration_seconds := m, previous_timestamp := p }, true)] ∧
    recvBeforeFirstSend (AudioClient.get_audio n d c m p events) = false ∧
    yieldedChunks (AudioClient.get_audio n d c m p events) =
      receivedChunks (AudioClient.get_audio n d c m p events) := by
  refine ⟨?_, rfl, ?_⟩
  · unfold AudioClient.get_audio
    simp [sentMessages, sentMessages_append, sentMessages_readLoop]
  · unfold AudioClient.get_audio
    simp [yieldedChunks, receivedChunks, yieldedChunks_append, receivedChunks_append,
      yielded_eq_received_readLoop]
